import Mathlib

/-!
Verification development for the wt-lens repository.

Part 1 embeds the ammunition-handoff helpers of
`src/pages/VehicleDetailPage.tsx` (`getBestKineticRound`,
`generateLOCalculatorUrl`) over exact rationals.

Part 2 embeds the data-merging layer of `src/data/vehicles.ts`
(`buildStatsMap`, `buildDatamineMap`, `mergeVehicleData`); the JavaScript
`Map`/`Set` are modelled as association lists with JS insertion/overwrite
semantics.

Part 3 models the Lanz-Odermatt calculator core (PenetrationModel,
SlopeEffectTable, BallisticDecayModel, CurveGenerator) from the
specification, since the page implementing it is not among the repository
sources available here; each such definition is marked `Modelled from the
spec:`.
-/

namespace WtLens

/-- The `lanzOdermatt` sub-record carried by an upstream ammunition record
(accessed as `bestRound.lanzOdermatt` in `getBestKineticRound`).
`Cx` is optional: the source reads it through the JS fallback `Cx || 0`. -/
structure LORecord where
  workingLength : ℚ
  density : ℚ
  Cx : Option ℚ
deriving DecidableEq

/-- An upstream ammunition record as consumed by `getBestKineticRound`.
The source types the list as `any[]`; the fields actually read are modelled,
optional where the JS code guards them with `||` fallbacks. -/
structure Ammo where
  type : Option String
  localizedName : Option String
  name : Option String
  penetration0m : Option ℚ
  armorPower : Option ℚ
  caliber : ℚ
  mass : ℚ
  muzzleVelocity : ℚ
  lanzOdermatt : Option LORecord
deriving DecidableEq

/-- The `AMMO_TYPE_LABELS` table of `VehicleDetailPage.tsx`. -/
def AMMO_TYPE_LABELS : List (String × String) :=
  [("apds_fs_tank", "APFSDS"),
   ("apds_fs_long_tank", "长杆APFSDS"),
   ("apds_fs_long_l30_tank", "L30长杆APFSDS"),
   ("apds_fs_tungsten_l10_l15_tank", "钨芯APFSDS"),
   ("apds_fs_tungsten_l10_l15_tank_navy", "钨芯APFSDS"),
   ("apds_fs_tungsten_l10_l15_navy", "钨芯APFSDS"),
   ("apds_fs_tungsten_caliber_fins_tank", "尾翼钨芯APFSDS"),
   ("apds_fs_tungsten_small_core_tank", "细钨芯APFSDS"),
   ("apds_early_tank", "早期APDS"),
   ("apds_tank", "APDS"),
   ("apcbc_tank", "APCBC"),
   ("apcbc_solid_medium_caliber_tank", "APCBC"),
   ("apcr_tank", "APCR"),
   ("ap_tank", "AP"),
   ("ap_he_tank", "APHE"),
   ("aphe_tank", "APHE"),
   ("aphebc_tank", "APHEBC"),
   ("apbc_usa_tank", "APBC"),
   ("apc_solid_medium_caliber_tank", "APC"),
   ("heat_tank", "HEAT"),
   ("heat_fs_tank", "HEAT-FS"),
   ("he_frag_tank", "HE"),
   ("he_frag_fs_tank", "HE-FS"),
   ("he_frag_radio_fuse", "HE-VT"),
   ("he_frag_dist_fuse", "HE-TF"),
   ("hesh_tank", "HESH"),
   ("smoke_tank", "烟雾弹"),
   ("atgm_tank", "反坦克导弹"),
   ("atgm_tandem_tank", "串联反坦克导弹"),
   ("sam_tank", "防空导弹"),
   ("sap_hei_tank", "半穿甲弹"),
   ("shrapnel_tank", "榴霰弹"),
   ("practice_tank", "训练弹")]

/-- `AMMO_TYPE_LABELS[key]` lookup (JS object indexing; `none` models
`undefined`). -/
def lookupLabel (k : String) : Option String :=
  (AMMO_TYPE_LABELS.find? (fun p => p.1 == k)).map (fun p => p.2)

/-- JS numeric `x || d`: `undefined` and `0` are falsy and fall through to
the default. -/
def jsNumOr (x : Option ℚ) (d : ℚ) : ℚ :=
  match x with
  | none => d
  | some v => if v = 0 then d else v

/-- JS string `x || d`: `undefined` and the empty string are falsy. -/
def jsStringOr (x : Option String) (d : String) : String :=
  match x with
  | none => d
  | some s => if s = "" then d else s

/-- `a.penetration0m || a.armorPower || 0` from the loop body of
`getBestKineticRound`. -/
def penOf (a : Ammo) : ℚ :=
  jsNumOr a.penetration0m (jsNumOr a.armorPower 0)

/-- The `loParams` payload built by `getBestKineticRound`. -/
structure LOParams where
  workingLength : ℚ
  density : ℚ
  caliber : ℚ
  mass : ℚ
  velocity : ℚ
  Cx : ℚ
deriving DecidableEq

/-- The record returned by `getBestKineticRound`. -/
structure RoundInfo where
  type : String
  name : String
  penetration : ℚ
  isLO : Bool
  loParams : Option LOParams
deriving DecidableEq

/-- The `for`-loop of `getBestKineticRound`: tracks the best round and the
best penetration seen so far, updating on strict improvement. -/
def findBest : List Ammo → Option Ammo → ℚ → Option Ammo × ℚ
  | [], best, bp => (best, bp)
  | a :: rest, best, bp =>
    if bp < penOf a then findBest rest (some a) (penOf a)
    else findBest rest best bp

/-- The first component of the loop result: the round the source calls
`bestRound`. -/
def bestAmmo (l : List Ammo) : Option Ammo := (findBest l none 0).1

/-- The return-object construction at the end of `getBestKineticRound`:
`type`/`name` via label lookup and `||` fallbacks, `loParams` present
exactly when the round carries a `lanzOdermatt` record, with
`Cx: bestRound.lanzOdermatt.Cx || 0`. -/
def mkRoundInfo (a : Ammo) (bp : ℚ) : RoundInfo :=
  { type := jsStringOr (a.type.bind lookupLabel) (jsStringOr a.type "Unknown")
    name := jsStringOr a.localizedName (jsStringOr a.name "Unknown")
    penetration := bp
    isLO := a.lanzOdermatt.isSome
    loParams := a.lanzOdermatt.map (fun lo =>
      { workingLength := lo.workingLength
        density := lo.density
        caliber := a.caliber
        mass := a.mass
        velocity := a.muzzleVelocity
        Cx := jsNumOr lo.Cx 0 }) }

/-- `getBestKineticRound` of `VehicleDetailPage.tsx`: returns `null` when
the list is absent or empty, otherwise scans for the round with the highest
penetration and returns `null` when none was picked up. -/
def getBestKineticRound (ammunitions : Option (List Ammo)) : Option RoundInfo :=
  match ammunitions with
  | none => none
  | some l =>
    if l.isEmpty then none
    else
      match findBest l none 0 with
      | (none, _) => none
      | (some bestRound, bestPen) => some (mkRoundInfo bestRound bestPen)

/-- The parameter set written into the `/lo-calculator` URL by
`generateLOCalculatorUrl` (the URL string serialization is presentation
only; the values are modelled). -/
structure URLParamsLO where
  wl : ℚ
  density : ℚ
  caliber : ℚ
  mass : ℚ
  cx : ℚ
  velocity : ℚ
  gamePen : ℚ
  vehicle : String
  ammo : String
deriving DecidableEq

/-- `x.toFixed(3)` on a rational value: round to three decimal places. -/
def roundTo3 (q : ℚ) : ℚ := (Int.floor (q * 1000 + 1 / 2) : ℚ) / 1000

/-- `generateLOCalculatorUrl` of `VehicleDetailPage.tsx`: packs the
Lanz-Odermatt parameters, converts muzzle velocity m/s to km/s with three
decimals, and passes the reference penetration through as `gamePen`. -/
def generateLOCalculatorUrl (loParams : LOParams) (roundName : String)
    (penetration : ℚ) (vehicleName : String) : URLParamsLO :=
  { wl := loParams.workingLength
    density := loParams.density
    caliber := loParams.caliber
    mass := loParams.mass
    cx := loParams.Cx
    velocity := roundTo3 (loParams.velocity / 1000)
    gamePen := penetration
    vehicle := vehicleName
    ammo := roundName }

/-! Part 2: `src/data/vehicles.ts`. -/

/-- The `mode` field of a StatShark entry. -/
inductive GameMode
  | arcade
  | historical
  | simulation
deriving DecidableEq

/-- A raw StatShark statistics entry (`StatSharkEntry` in `vehicles.ts`). -/
structure StatSharkEntry where
  id : String
  name : String
  mode : GameMode
  battles : ℚ
  win_rate : ℚ
  avg_kills_per_spawn : ℚ
  rank : Option ℚ
  br : Option ℚ
deriving DecidableEq

/-- The `performance` sub-record of a datamine entry; optional fields model
the `?`/`| null` annotations of the TypeScript interface. The `any`-typed
`mainGun`/`penetrationData` payloads are modelled as opaque strings and
`ammunitions` as the ammunition list consumed by `getBestKineticRound`. -/
structure DataminePerformance where
  horsepower : Option ℚ
  weight : Option ℚ
  power_to_weight : Option ℚ
  max_reverse_speed : Option ℚ
  reload_time : Option ℚ
  penetration : Option ℚ
  max_speed : Option ℚ
  crew_count : Option ℚ
  elevation_speed : Option ℚ
  traverse_speed : Option ℚ
  has_stabilizer : Option Bool
  stabilizer_type : Option String
  elevation_range : Option (ℚ × ℚ)
  traverse_range : Option (ℚ × ℚ)
  gunner_thermal_resolution : Option (ℚ × ℚ)
  commander_thermal_resolution : Option (ℚ × ℚ)
  gunner_thermal_diagonal : Option ℚ
  commander_thermal_diagonal : Option ℚ
  stabilizer_value : Option ℚ
  elevation_range_value : Option ℚ
  mainGun : Option String
  ammunitions : Option (List Ammo)
  penetrationData : Option String
deriving DecidableEq

/-- A raw datamine entry (`DatamineEntry` in `vehicles.ts`). -/
structure DatamineEntry where
  id : String
  name : String
  localizedName : String
  nation : String
  rank : ℚ
  battle_rating : ℚ
  vehicle_type : String
  economic_type : String
  performance : DataminePerformance
  imageUrl : String
  source : String
deriving DecidableEq

/-- The merged per-vehicle performance record (all defaults applied). -/
structure VehiclePerformance where
  horsepower : ℚ
  weight : ℚ
  powerToWeight : ℚ
  maxReverseSpeed : ℚ
  reloadTime : ℚ
  penetration : ℚ
  maxSpeed : ℚ
  crewCount : ℚ
  elevationSpeed : ℚ
  traverseSpeed : ℚ
  hasStabilizer : Bool
  stabilizerType : String
  elevationRange : ℚ × ℚ
  traverseRange : ℚ × ℚ
  gunnerThermalResolution : ℚ × ℚ
  commanderThermalResolution : ℚ × ℚ
  gunnerThermalDiagonal : ℚ
  commanderThermalDiagonal : ℚ
  stabilizerValue : ℚ
  elevationRangeValue : ℚ
  mainGun : Option String
  ammunitions : Option (List Ammo)
  penetrationData : Option String
deriving DecidableEq

/-- The optional `stats` block of a merged vehicle. -/
structure VehicleStats where
  battles : ℚ
  winRate : ℚ
  avgKills : ℚ
deriving DecidableEq

/-- A merged vehicle record (`Vehicle` as constructed by
`mergeVehicleData`). -/
structure Vehicle where
  id : String
  name : String
  localizedName : String
  nation : String
  rank : ℚ
  battleRating : ℚ
  vehicleType : String
  economicType : String
  performance : VehiclePerformance
  stats : Option VehicleStats
  imageUrl : String
deriving DecidableEq

/-- JS `Map.set`: overwrite in place when the key exists, append otherwise. -/
def setEntry {α : Type} (m : List (String × α)) (k : String) (v : α) :
    List (String × α) :=
  if m.any (fun p => p.1 == k) then
    m.map (fun p => if p.1 == k then (k, v) else p)
  else m ++ [(k, v)]

/-- JS `Map.get`: the (unique) entry with the given key, scanning the
association list. -/
def getEntry {α : Type} : List (String × α) → String → Option α
  | [], _ => none
  | p :: m, k => if p.1 == k then some p.2 else getEntry m k

/-- `buildStatsMap` of `vehicles.ts`: keep only historical-mode entries. -/
def buildStatsMap (stats : List StatSharkEntry) :
    List (String × StatSharkEntry) :=
  stats.foldl
    (fun m e => if e.mode = GameMode.historical then setEntry m e.id e else m)
    []

/-- `buildDatamineMap` of `vehicles.ts`. -/
def buildDatamineMap (datamine : List DatamineEntry) :
    List (String × DatamineEntry) :=
  datamine.foldl (fun m e => setEntry m e.id e) []

/-- JS `Set` insertion: keep the first occurrence of each id. -/
def insertUnique (acc : List String) (k : String) : List String :=
  if k ∈ acc then acc else acc ++ [k]

/-- The vehicle object literal built inside the `mergeVehicleData` loop.
`rank`/`battleRating` prefer the stats entry (`??` keeps `0` unlike `||`);
the trailing `?? 1`/`?? 1.0` of the source are unreachable because the
datamine fields are non-optional in its interface. -/
def mkVehicle (id : String) (statsEntry : Option StatSharkEntry)
    (datamineEntry : DatamineEntry) : Vehicle :=
  { id := id
    name := datamineEntry.name
    localizedName := datamineEntry.localizedName
    nation := datamineEntry.nation
    rank := (statsEntry.bind StatSharkEntry.rank).getD datamineEntry.rank
    battleRating := (statsEntry.bind StatSharkEntry.br).getD datamineEntry.battle_rating
    vehicleType := datamineEntry.vehicle_type
    economicType := datamineEntry.economic_type
    performance :=
      { horsepower := datamineEntry.performance.horsepower.getD 0
        weight := datamineEntry.performance.weight.getD 0
        powerToWeight := datamineEntry.performance.power_to_weight.getD 0
        maxReverseSpeed := datamineEntry.performance.max_reverse_speed.getD 0
        reloadTime := datamineEntry.performance.reload_time.getD 0
        penetration := datamineEntry.performance.penetration.getD 0
        maxSpeed := datamineEntry.performance.max_speed.getD 0
        crewCount := datamineEntry.performance.crew_count.getD 0
        elevationSpeed := datamineEntry.performance.elevation_speed.getD 0
        traverseSpeed := datamineEntry.performance.traverse_speed.getD 0
        hasStabilizer := datamineEntry.performance.has_stabilizer.getD false
        stabilizerType := datamineEntry.performance.stabilizer_type.getD "none"
        elevationRange := datamineEntry.performance.elevation_range.getD (0, 0)
        traverseRange := datamineEntry.performance.traverse_range.getD (0, 0)
        gunnerThermalResolution :=
          datamineEntry.performance.gunner_thermal_resolution.getD (0, 0)
        commanderThermalResolution :=
          datamineEntry.performance.commander_thermal_resolution.getD (0, 0)
        gunnerThermalDiagonal :=
          datamineEntry.performance.gunner_thermal_diagonal.getD 0
        commanderThermalDiagonal :=
          datamineEntry.performance.commander_thermal_diagonal.getD 0
        stabilizerValue := datamineEntry.performance.stabilizer_value.getD 0
        elevationRangeValue :=
          datamineEntry.performance.elevation_range_value.getD 0
        mainGun := datamineEntry.performance.mainGun
        ammunitions := datamineEntry.performance.ammunitions
        penetrationData := datamineEntry.performance.penetrationData }
    stats := statsEntry.map (fun s =>
      { battles := s.battles
        winRate := s.win_rate
        avgKills := s.avg_kills_per_spawn })
    imageUrl := datamineEntry.imageUrl }

/-- `mergeVehicleData` of `vehicles.ts`: union of ids in first-insertion
order, skipping ids with no datamine entry. -/
def mergeVehicleData (stats : List StatSharkEntry)
    (datamine : List DatamineEntry) : List Vehicle :=
  let statsMap := buildStatsMap stats
  let datamineMap := buildDatamineMap datamine
  let allIds :=
    ((statsMap.map (fun p => p.1)) ++ (datamineMap.map (fun p => p.1))).foldl
      insertUnique []
  allIds.filterMap (fun id =>
    match getEntry datamineMap id with
    | none => none
    | some datamineEntry =>
        some (mkVehicle id (getEntry statsMap id) datamineEntry))

/-! Part 3: the Lanz-Odermatt calculator core, modelled from the spec.
Classical decidability is used for the real-valued branch conditions. -/

open Classical

/-- Modelled from the spec: penetrator material enum (§3). -/
inductive PenetratorMaterial
  | Tungsten
  | DU
  | Steel
deriving DecidableEq

/-- Modelled from the spec: calculation mode enum (§3);
`Penetration` is the semi-infinite mode. -/
inductive CalculationMode
  | Perforation
  | Penetration
deriving DecidableEq

/-- Modelled from the spec: penetrator geometry (§3): total length `L` (mm),
diameter `d` (mm), frustum length `fLen` (mm), frustum tip diameter `df`
(mm), density `densityP` (kg/m³), hardness `bhnP` (BHN, steel only). -/
structure PenetratorGeometry where
  L : ℝ
  d : ℝ
  fLen : ℝ
  df : ℝ
  densityP : ℝ
  bhnP : ℝ

/-- Modelled from the spec: target properties (§3). -/
structure TargetProperties where
  density : ℝ
  hardness : ℝ
  obliquity : ℝ

/-- Modelled from the spec (§3): working length
`lw = L − fLen·(1 − (1 + (df/d)·(1+df/d))/3)`. -/
noncomputable def workingLength (g : PenetratorGeometry) : ℝ :=
  g.L - g.fLen * (1 - (1 + (g.df / g.d) * (1 + g.df / g.d)) / 3)

/-- Modelled from the spec (§3): aspect ratio `lw/d`. -/
noncomputable def aspectRatio (g : PenetratorGeometry) : ℝ :=
  workingLength g / g.d

/-- Modelled from the spec (§7): the validation-error taxonomy. -/
inductive LOErrorKind
  | nonPositiveLength
  | nonPositiveDiameter
  | frustumExceedsDiameter
  | aspectRatioBelowFour
  | targetDensityOutOfRange
  | obliquityAboveLimit
  | penetratorDensityOutOfRange
  | targetHardnessOutOfRange
  | penetratorHardnessOutOfRange
  | velocityBelowErosionThreshold
  | unsupportedCombination
deriving DecidableEq

/-- Modelled from the spec: §4.1 step 4 prescribes a material/mode-specific
exponential erosion term and minimum-velocity threshold but does not give
their algebraic form (the source page implementing them is not available),
so they are taken as an explicit model parameter. `expTerm_lt` records the
spec's own statement (§8) that the exponential term is monotonic in the
velocity above the erosion threshold. -/
structure ErosionModel where
  expTerm : PenetratorMaterial → CalculationMode → PenetratorGeometry →
    TargetProperties → ℝ → ℝ
  minVelocity : PenetratorMaterial → CalculationMode → PenetratorGeometry →
    TargetProperties → ℝ
  expTerm_lt : ∀ mat mode g tgt v1 v2, minVelocity mat mode g tgt < v1 →
    v1 < v2 → expTerm mat mode g tgt v1 < expTerm mat mode g tgt v2

/-- Modelled from the spec (§4.1 step 2): geometry validation, accumulated
without short-circuiting. -/
noncomputable def geometryErrors (g : PenetratorGeometry) : List LOErrorKind :=
  (if g.L ≤ 0 then [LOErrorKind.nonPositiveLength] else []) ++
  (if g.d ≤ 0 then [LOErrorKind.nonPositiveDiameter] else []) ++
  (if g.d < g.df then [LOErrorKind.frustumExceedsDiameter] else []) ++
  (if aspectRatio g < 4 then [LOErrorKind.aspectRatioBelowFour] else [])

/-- Modelled from the spec (§4.1 step 2): target density must lie in
[7700, 8000] kg/m³. -/
noncomputable def targetErrors (tgt : TargetProperties) : List LOErrorKind :=
  if tgt.density < 7700 ∨ 8000 < tgt.density then
    [LOErrorKind.targetDensityOutOfRange]
  else []

/-- Modelled from the spec (§4.1 step 2): in perforation mode the obliquity
must not exceed 75°. -/
noncomputable def obliquityErrors (mode : CalculationMode)
    (tgt : TargetProperties) : List LOErrorKind :=
  if mode = CalculationMode.Perforation ∧ 75 < tgt.obliquity then
    [LOErrorKind.obliquityAboveLimit]
  else []

/-- Modelled from the spec (§4.1 table): an exclusive-bounds check
`(lo, hi)` on a quantity, emitting the given error kind on violation. -/
noncomputable def boundErrors (lo hi q : ℝ) (k : LOErrorKind) :
    List LOErrorKind :=
  if q ≤ lo ∨ hi ≤ q then [k] else []

/-- Modelled from the spec (§4.1 step 4): erosion check — velocity below
the material/mode-specific minimum-velocity threshold. -/
noncomputable def erosionErrors (E : ErosionModel) (mat : PenetratorMaterial)
    (mode : CalculationMode) (g : PenetratorGeometry)
    (tgt : TargetProperties) (v : ℝ) : List LOErrorKind :=
  if v < E.minVelocity mat mode g tgt then
    [LOErrorKind.velocityBelowErosionThreshold]
  else []

/-- Modelled from the spec (§4.1 table, §7): the material×mode dispatch.
The four supported combinations check the material/mode-specific density
and hardness bounds and the erosion threshold; DU×Penetration and
Steel×Penetration report the unsupported-combination error instead of
computing. -/
noncomputable def dispatchErrors (E : ErosionModel) (g : PenetratorGeometry)
    (mat : PenetratorMaterial) (tgt : TargetProperties)
    (mode : CalculationMode) (v : ℝ) : List LOErrorKind :=
  match mat, mode with
  | PenetratorMaterial.Tungsten, CalculationMode.Perforation =>
    boundErrors 16500 19300 g.densityP LOErrorKind.penetratorDensityOutOfRange ++
    boundErrors 150 500 tgt.hardness LOErrorKind.targetHardnessOutOfRange ++
    erosionErrors E mat mode g tgt v
  | PenetratorMaterial.Tungsten, CalculationMode.Penetration =>
    boundErrors 16500 19300 g.densityP LOErrorKind.penetratorDensityOutOfRange ++
    boundErrors 200 600 tgt.hardness LOErrorKind.targetHardnessOutOfRange ++
    erosionErrors E mat mode g tgt v
  | PenetratorMaterial.DU, CalculationMode.Perforation =>
    boundErrors 16500 19100 g.densityP LOErrorKind.penetratorDensityOutOfRange ++
    boundErrors 150 500 tgt.hardness LOErrorKind.targetHardnessOutOfRange ++
    erosionErrors E mat mode g tgt v
  | PenetratorMaterial.Steel, CalculationMode.Perforation =>
    boundErrors 7700 8500 g.densityP LOErrorKind.penetratorDensityOutOfRange ++
    boundErrors 200 750 g.bhnP LOErrorKind.penetratorHardnessOutOfRange ++
    boundErrors 120 550 tgt.hardness LOErrorKind.targetHardnessOutOfRange ++
    erosionErrors E mat mode g tgt v
  | PenetratorMaterial.DU, CalculationMode.Penetration =>
    [LOErrorKind.unsupportedCombination]
  | PenetratorMaterial.Steel, CalculationMode.Penetration =>
    [LOErrorKind.unsupportedCombination]

/-- Modelled from the spec (§4.1 shared constants): `b0 = 0.283`. -/
noncomputable def b0 : ℝ := 0.283

/-- Modelled from the spec (§4.1 shared constants): `b1 = 0.0656`. -/
noncomputable def b1 : ℝ := 0.0656

/-- Modelled from the spec (§4.1 shared constants): obliquity exponent
`m = −0.224`. -/
noncomputable def mObl : ℝ := -0.224

/-- Modelled from the spec (§4.1 step 3): aspect-ratio correction
`elwd = 1/tanh(b0 + b1·lwd)`. -/
noncomputable def elwd (g : PenetratorGeometry) : ℝ :=
  1 / Real.tanh (b0 + b1 * aspectRatio g)

/-- Modelled from the spec (§4.1 step 3): obliquity correction
`enato = cos(obliquity_rad)^m`. -/
noncomputable def enato (tgt : TargetProperties) : ℝ :=
  Real.rpow (Real.cos (tgt.obliquity * Real.pi / 180)) mObl

/-- Modelled from the spec (§4.1 step 3): density correction
`edens = sqrt(ρp/ρt)`. -/
noncomputable def edens (g : PenetratorGeometry) (tgt : TargetProperties) : ℝ :=
  Real.sqrt (g.densityP / tgt.density)

/-- Modelled from the spec (§4.1 step 5 and table): the error-free
penetration value `a · lw · elwd · [enato] · edens · exp_term`; `enato` is
omitted for Tungsten×Penetration, and the unsupported combinations yield 0. -/
noncomputable def basePenetration (E : ErosionModel) (g : PenetratorGeometry)
    (mat : PenetratorMaterial) (tgt : TargetProperties)
    (mode : CalculationMode) (v : ℝ) : ℝ :=
  match mat, mode with
  | PenetratorMaterial.Tungsten, CalculationMode.Perforation =>
    0.994 * workingLength g * elwd g * enato tgt * edens g tgt *
      E.expTerm PenetratorMaterial.Tungsten CalculationMode.Perforation g tgt v
  | PenetratorMaterial.Tungsten, CalculationMode.Penetration =>
    0.921 * workingLength g * elwd g * edens g tgt *
      E.expTerm PenetratorMaterial.Tungsten CalculationMode.Penetration g tgt v
  | PenetratorMaterial.DU, CalculationMode.Perforation =>
    0.825 * workingLength g * elwd g * enato tgt * edens g tgt *
      E.expTerm PenetratorMaterial.DU CalculationMode.Perforation g tgt v
  | PenetratorMaterial.Steel, CalculationMode.Perforation =>
    1.104 * workingLength g * elwd g * enato tgt * edens g tgt *
      E.expTerm PenetratorMaterial.Steel CalculationMode.Perforation g tgt v
  | PenetratorMaterial.DU, CalculationMode.Penetration => 0
  | PenetratorMaterial.Steel, CalculationMode.Penetration => 0

/-- Modelled from the spec (§3): the result value of a `compute` call. -/
structure LOResult where
  penetration : ℝ
  mode : CalculationMode
  material : PenetratorMaterial
  workingLength : ℝ
  aspectRatio : ℝ
  minErosionVelocity : ℝ
  errors : List LOErrorKind

/-- Modelled from the spec (§4.1): `PenetrationModel.compute` — a total
function (the model never throws): it accumulates every applicable
validation error and returns penetration 0 whenever any error is present. -/
noncomputable def compute (E : ErosionModel) (g : PenetratorGeometry)
    (mat : PenetratorMaterial) (tgt : TargetProperties)
    (mode : CalculationMode) (v : ℝ) : LOResult :=
  let errs := geometryErrors g ++ targetErrors tgt ++
    obliquityErrors mode tgt ++ dispatchErrors E g mat tgt mode v
  { penetration := if errs = [] then basePenetration E g mat tgt mode v else 0
    mode := mode
    material := mat
    workingLength := workingLength g
    aspectRatio := aspectRatio g
    minErosionVelocity := E.minVelocity mat mode g tgt
    errors := errs }

/-- Modelled from the spec (§4.2): the fixed slope-effect table. -/
noncomputable def slopeEffectTable : List (ℝ × ℝ) :=
  [(0, 20), (10, 5.3), (20, 2.4), (30, 1.73), (50, 1.305), (70, 1.064), (90, 1)]

/-- Modelled from the spec (§4.2): linear interpolation over an ordered
angle→multiplier table, clamping below the first and above the last angle. -/
noncomputable def interp : List (ℝ × ℝ) → ℝ → ℝ
  | [], _ => 1
  | [(_, m)], _ => m
  | (a1, m1) :: (a2, m2) :: rest, x =>
    if x ≤ a1 then m1
    else if x ≤ a2 then m1 + (m2 - m1) * (x - a1) / (a2 - a1)
    else interp ((a2, m2) :: rest) x

/-- Modelled from the spec (§4.2):
`SlopeEffectTable.multiplier_at_normal_angle`. -/
noncomputable def multiplier_at_normal_angle (angle : ℝ) : ℝ :=
  interp slopeEffectTable angle

/-- Modelled from the spec (§4.2): `equivalent_penetration(pen0, θ) =
pen0 / multiplier_at_normal_angle(90 − θ)` for θ > 0, identity otherwise. -/
noncomputable def equivalent_penetration (pen0 natoObliquity : ℝ) : ℝ :=
  if 0 < natoObliquity then
    pen0 / multiplier_at_normal_angle (90 - natoObliquity)
  else pen0

/-- Modelled from the spec (§4.3): `BallisticDecayModel.velocity_at_distance`
with `area = π·(caliber/2000)²`, `k = cx·1.225·area/(2·mass)` and
`v(d) = v0·exp(−k·d)`. -/
noncomputable def velocity_at_distance (v0 distance mass caliber cx : ℝ) : ℝ :=
  v0 * Real.exp (-(cx * 1.225 * (Real.pi * (caliber / 2000) ^ 2) / (2 * mass) *
    distance))

/-- Modelled from the spec (§4.4): one sample of the distance curve. -/
structure CurvePoint where
  distance : ℝ
  equivalentPenetration : ℝ
  basePenetration : ℝ
  impactVelocity : ℝ

/-- Modelled from the spec (§4.4): `CurveGenerator.distance_curve` — sample
`steps+1` evenly spaced distances, compute impact velocity, evaluate the
penetration model at 0° obliquity, convert via the slope-effect table at the
configured obliquity, and drop (not zero-fill) erroring samples. -/
noncomputable def distance_curve (E : ErosionModel) (g : PenetratorGeometry)
    (mat : PenetratorMaterial) (tgt : TargetProperties)
    (mode : CalculationMode) (v0 mass caliber cx maxDistance : ℝ)
    (steps : ℕ) : List CurvePoint :=
  (List.range (steps + 1)).filterMap (fun (i : ℕ) =>
    let dd : ℝ := (i : ℝ) * maxDistance / (steps : ℝ)
    let v := velocity_at_distance v0 dd mass caliber cx
    let res := compute E g mat { tgt with obliquity := 0 } mode v
    if res.errors = [] then
      some { distance := dd
             equivalentPenetration :=
               equivalent_penetration res.penetration tgt.obliquity
             basePenetration := res.penetration
             impactVelocity := v }
    else none)

/-! Concrete instances used by witnesses and counterexamples. -/

/-- A concrete erosion-model instance: identity exponential term and zero
threshold (trivially monotone above the threshold). -/
noncomputable def E0 : ErosionModel :=
  { expTerm := fun _ _ _ _ v => v
    minVelocity := fun _ _ _ _ => 0
    expTerm_lt := fun _ _ _ _ _ _ _ h2 => h2 }

/-- A concrete valid geometry: L 600 mm, d 30 mm, no frustum, tungsten-range
density. -/
noncomputable def g0 : PenetratorGeometry :=
  { L := 600, d := 30, fLen := 0, df := 0, densityP := 17600, bhnP := 300 }

/-- A concrete geometry with a non-positive length. -/
noncomputable def gBad : PenetratorGeometry :=
  { L := -1, d := 30, fLen := 0, df := 0, densityP := 17600, bhnP := 300 }

/-- A concrete valid target: RHA-range density, 260 BHN, head-on. -/
noncomputable def tgt0 : TargetProperties :=
  { density := 7850, hardness := 260, obliquity := 0 }

/-- A concrete ammunition record whose `lanzOdermatt` record has no `Cx`. -/
def lo0 : LORecord := { workingLength := 500, density := 17600, Cx := none }

/-- A concrete ammunition record carrying `lo0`. -/
def a0 : Ammo :=
  { type := some "apds_fs_tank"
    localizedName := some "3BM60"
    name := some "3bm60"
    penetration0m := some 100
    armorPower := none
    caliber := 125
    mass := 5
    muzzleVelocity := 1700
    lanzOdermatt := some lo0 }

/-- The well-formedness relation between adjacent slope-effect table
entries: strictly increasing angles, non-increasing multipliers. -/
def slopeChainR (p q : ℝ × ℝ) : Prop := p.1 < q.1 ∧ q.2 ≤ p.2

/-- A concrete historical-mode StatShark entry. -/
def s0 : StatSharkEntry :=
  { id := "ussr_t_34_1942"
    name := "ussr_t_34_1942"
    mode := GameMode.historical
    battles := 125000
    win_rate := 523 / 10
    avg_kills_per_spawn := 6 / 5
    rank := some 3
    br := some 4 }

/-- A concrete datamine performance record with some fields absent. -/
def dp0 : DataminePerformance :=
  { horsepower := some 500
    weight := none
    power_to_weight := some (164 / 10)
    max_reverse_speed := none
    reload_time := some (13 / 2)
    penetration := some 135
    max_speed := some 55
    crew_count := some 4
    elevation_speed := none
    traverse_speed := some 14
    has_stabilizer := some false
    stabilizer_type := none
    elevation_range := some (-5, 30)
    traverse_range := none
    gunner_thermal_resolution := none
    commander_thermal_resolution := none
    gunner_thermal_diagonal := none
    commander_thermal_diagonal := none
    stabilizer_value := none
    elevation_range_value := some 35
    mainGun := none
    ammunitions := some [a0]
    penetrationData := none }

/-- A concrete datamine entry with the same id as `s0`. -/
def d0 : DatamineEntry :=
  { id := "ussr_t_34_1942"
    name := "ussr_t_34_1942"
    localizedName := "T-34 (1942)"
    nation := "ussr"
    rank := 3
    battle_rating := 4
    vehicle_type := "medium_tank"
    economic_type := "regular"
    performance := dp0
    imageUrl := "images/ussr_t_34_1942.png"
    source := "datamine" }

/-- The merged vehicle produced from `s0` and `d0`. -/
def v0 : Vehicle := mkVehicle "ussr_t_34_1942" (some s0) d0

/-! Helper lemmas about the `getBestKineticRound` loop. -/

/-- The loop yields no best round exactly when it started with none and no
element strictly beats the running best penetration. -/
theorem findBest_fst_none (l : List Ammo) :
    ∀ (best : Option Ammo) (bp : ℚ),
      (findBest l best bp).1 = none ↔ best = none ∧ ∀ a ∈ l, penOf a ≤ bp := by
  induction l with
  | nil => intro best bp; simp [findBest]
  | cons a rest ih =>
    intro best bp
    by_cases h : bp < penOf a
    · rw [findBest, if_pos h, ih]
      simp only [reduceCtorEq, false_and, false_iff, not_and, not_forall]
      intro _
      exact ⟨a, List.mem_cons_self a rest, not_le.mpr h⟩
    · rw [findBest, if_neg h, ih]
      constructor
      · rintro ⟨h1, h2⟩
        refine ⟨h1, fun x hx => ?_⟩
        rcases List.mem_cons.mp hx with rfl | hx
        · exact not_lt.mp h
        · exact h2 x hx
      · rintro ⟨h1, h2⟩
        exact ⟨h1, fun x hx => h2 x (List.mem_cons_of_mem _ hx)⟩

/-- Full characterization of the loop: either no element ever beat the
initial running best (loop is the identity), or the result is the first
list element attaining the maximal penetration above the initial best. -/
theorem findBest_cases (l : List Ammo) :
    ∀ (best : Option Ammo) (bp : ℚ),
      (findBest l best bp = (best, bp) ∧ ∀ a ∈ l, penOf a ≤ bp) ∨
      (∃ i : Fin l.length,
        findBest l best bp = (some (l.get i), penOf (l.get i)) ∧
        bp < penOf (l.get i) ∧
        (∀ j : Fin l.length, penOf (l.get j) ≤ penOf (l.get i)) ∧
        (∀ j : Fin l.length, (j : ℕ) < (i : ℕ) →
          penOf (l.get j) < penOf (l.get i))) := by
  induction l with
  | nil => intro best bp; left; simp [findBest]
  | cons a rest ih =>
    intro best bp
    by_cases h : bp < penOf a
    · rcases ih (some a) (penOf a) with ⟨heq, hall⟩ | ⟨i, heq, hlt, hmax, hfirst⟩
      · right
        refine ⟨⟨0, Nat.succ_pos _⟩, ?_, ?_, ?_, ?_⟩
        · rw [findBest, if_pos h, heq]; rfl
        · simpa [List.get_cons_zero] using h
        · intro j
          refine Fin.cases ?_ (fun j' => ?_) j
          · simp
          · simpa [List.get_cons_succ'] using hall (rest.get j') (List.get_mem _ _ _)
        · intro j hj
          exact absurd hj (by simp)
      · right
        refine ⟨i.succ, ?_, ?_, ?_, ?_⟩
        · rw [findBest, if_pos h, heq]; simp [List.get_cons_succ']
        · simpa [List.get_cons_succ'] using h.trans hlt
        · intro j
          refine Fin.cases ?_ (fun j' => ?_) j
          · simpa [List.get_cons_succ'] using hlt.le
          · simpa [List.get_cons_succ'] using hmax j'
        · intro j
          refine Fin.cases ?_ (fun j' => ?_) j
          · intro _; simpa [List.get_cons_succ'] using hlt
          · intro hj'
            have hj2 : (j' : ℕ) < (i : ℕ) := by
              simpa [Fin.val_succ, Nat.succ_lt_succ_iff] using hj'
            simpa [List.get_cons_succ'] using hfirst j' hj2
    · rcases ih best bp with ⟨heq, hall⟩ | ⟨i, heq, hlt, hmax, hfirst⟩
      · left
        constructor
        · rw [findBest, if_neg h]; exact heq
        · intro x hx
          rcases List.mem_cons.mp hx with rfl | hx
          · exact not_lt.mp h
          · exact hall x hx
      · right
        refine ⟨i.succ, ?_, ?_, ?_, ?_⟩
        · rw [findBest, if_neg h, heq]; simp [List.get_cons_succ']
        · simpa [List.get_cons_succ'] using hlt
        · intro j
          refine Fin.cases ?_ (fun j' => ?_) j
          · simpa [List.get_cons_succ'] using (not_lt.mp h).trans hlt.le
          · simpa [List.get_cons_succ'] using hmax j'
        · intro j
          refine Fin.cases ?_ (fun j' => ?_) j
          · intro _
            simpa [List.get_cons_succ'] using lt_of_le_of_lt (not_lt.mp h) hlt
          · intro hj'
            have hj2 : (j' : ℕ) < (i : ℕ) := by
              simpa [Fin.val_succ, Nat.succ_lt_succ_iff] using hj'
            simpa [List.get_cons_succ'] using hfirst j' hj2

/-- Unfolding of `getBestKineticRound` through the loop result. -/
theorem getBestKineticRound_eq (l : List Ammo) :
    getBestKineticRound (some l) =
      match (findBest l none 0).1 with
      | none => none
      | some a => some (mkRoundInfo a (findBest l none 0).2) := by
  cases l with
  | nil => rfl
  | cons a rest =>
    rw [getBestKineticRound]
    rcases hob : findBest (a :: rest) none 0 with ⟨ob, bp⟩
    simp only [List.isEmpty_cons, Bool.false_eq_true, if_false, hob]
    cases ob <;> rfl

/-- Claim C9: `getBestKineticRound` returns null exactly when the list is
absent, empty, or contains no round with positive penetration (the value
`penetration0m || armorPower || 0`); otherwise it returns the first round
of maximal penetration in list order, with `loParams` populated if and only
if that round carries a `lanzOdermatt` record. -/
theorem getBestKineticRound_spec (l : List Ammo) :
    getBestKineticRound none = none ∧
    (getBestKineticRound (some l) = none ↔ ∀ a ∈ l, penOf a ≤ 0) ∧
    (∀ r, getBestKineticRound (some l) = some r →
      ∃ i : Fin l.length,
        r = mkRoundInfo (l.get i) (penOf (l.get i)) ∧
        0 < penOf (l.get i) ∧
        (∀ j : Fin l.length, penOf (l.get j) ≤ penOf (l.get i)) ∧
        (∀ j : Fin l.length, (j : ℕ) < (i : ℕ) →
          penOf (l.get j) < penOf (l.get i)) ∧
        (r.loParams.isSome ↔ ((l.get i).lanzOdermatt).isSome)) := by
  refine ⟨rfl, ?_, ?_⟩
  · rw [getBestKineticRound_eq l]
    have hfb := findBest_fst_none l none 0
    rcases hob : findBest l none 0 with ⟨ob, bp⟩
    rw [hob] at hfb
    simp only [true_and] at hfb
    cases ob with
    | none =>
      constructor
      · intro _; exact hfb.mp rfl
      · intro _; trivial
    | some r =>
      constructor
      · intro hcon; exact absurd hcon (by simp)
      · intro hall
        exact absurd (hfb.mpr hall) (by simp)
  · intro r hr
    rw [getBestKineticRound_eq l] at hr
    rcases findBest_cases l none 0 with ⟨heq, _⟩ | ⟨i, heq, hlt, hmax, hfirst⟩
    · rw [heq] at hr
      exact absurd hr (by simp)
    · rw [heq] at hr
      simp only [Option.some.injEq] at hr
      refine ⟨i, hr.symm, hlt, hmax, hfirst, ?_⟩
      rw [← hr]
      simp [mkRoundInfo, Option.isSome_map]

/-- Witness for C9 at a concrete input: the empty list yields null. -/
theorem getBestKineticRound_spec_witness :
    getBestKineticRound (some ([] : List Ammo)) = none :=
  (getBestKineticRound_spec []).2.1.mpr (by simp)

/-- Claim C1 counterexample: for the concrete ammunition record `a0`, whose
`lanzOdermatt` record has no `Cx` field, the handoff supplies `Cx = 0`, not
the documented default 0.843. -/
theorem loParams_Cx_counterexample :
    ((getBestKineticRound (some [a0])).bind RoundInfo.loParams).map LOParams.Cx
      = some 0 ∧
    ((getBestKineticRound (some [a0])).bind RoundInfo.loParams).map LOParams.Cx
      ≠ some (843 / 1000 : ℚ) := by
  have h0 : ((getBestKineticRound (some [a0])).bind RoundInfo.loParams).map
      LOParams.Cx = some 0 := by decide
  refine ⟨h0, ?_⟩
  rw [h0]
  norm_num

/-- Claim C1 (amended): when the selected best round carries a
`lanzOdermatt` record whose drag coefficient is absent, the handoff built by
`getBestKineticRound` supplies 0 (the JS `|| 0` fallback) for `Cx`. -/
theorem loParams_Cx_amended (l : List Ammo) (a : Ammo) (lo : LORecord)
    (hb : bestAmmo l = some a) (hlo : a.lanzOdermatt = some lo)
    (hcx : lo.Cx = none) :
    ((getBestKineticRound (some l)).bind RoundInfo.loParams).map LOParams.Cx
      = some 0 := by
  rw [getBestKineticRound_eq l]
  unfold bestAmmo at hb
  rcases hob : findBest l none 0 with ⟨ob, bp⟩
  rw [hob] at hb
  obtain rfl : ob = some a := hb
  simp [mkRoundInfo, hlo, hcx, jsNumOr]

/-- Witness for the amended C1 at the concrete record `a0`. -/
theorem loParams_Cx_amended_witness :
    ((getBestKineticRound (some [a0])).bind RoundInfo.loParams).map LOParams.Cx
      = some 0 :=
  loParams_Cx_amended [a0] a0 lo0 (by decide) (by decide) (by decide)

/-- Claim C2: two invocations of `generateLOCalculatorUrl` that differ only
in the externally supplied reference penetration produce identical model
inputs (`wl`, `density`, `caliber`, `mass`, `cx`, `velocity`); the reference
penetration only reaches the display-only `gamePen` field. -/
theorem generateLOCalculatorUrl_ref_pen_display_only
    (lo : LOParams) (roundName : String) (p1 p2 : ℚ) (vehicleName : String) :
    (generateLOCalculatorUrl lo roundName p1 vehicleName).wl =
      (generateLOCalculatorUrl lo roundName p2 vehicleName).wl ∧
    (generateLOCalculatorUrl lo roundName p1 vehicleName).density =
      (generateLOCalculatorUrl lo roundName p2 vehicleName).density ∧
    (generateLOCalculatorUrl lo roundName p1 vehicleName).caliber =
      (generateLOCalculatorUrl lo roundName p2 vehicleName).caliber ∧
    (generateLOCalculatorUrl lo roundName p1 vehicleName).mass =
      (generateLOCalculatorUrl lo roundName p2 vehicleName).mass ∧
    (generateLOCalculatorUrl lo roundName p1 vehicleName).cx =
      (generateLOCalculatorUrl lo roundName p2 vehicleName).cx ∧
    (generateLOCalculatorUrl lo roundName p1 vehicleName).velocity =
      (generateLOCalculatorUrl lo roundName p2 vehicleName).velocity ∧
    (generateLOCalculatorUrl lo roundName p1 vehicleName).gamePen = p1 :=
  ⟨rfl, rfl, rfl, rfl, rfl, rfl, rfl⟩

/-! Helper lemmas about the association-list model of JS `Map`. -/

/-- Updating key `k` in place does not change lookups of other keys. -/
theorem getEntry_map_ne {α : Type} (m : List (String × α)) (k k' : String)
    (v : α) (h : k' ≠ k) :
    getEntry (m.map (fun p => if p.1 == k then (k, v) else p)) k' =
      getEntry m k' := by
  induction m with
  | nil => rfl
  | cons p m' ih =>
    by_cases hp : (p.1 == k) = true
    · have hp1 : p.1 = k := by simpa using hp
      simp only [List.map_cons, if_pos hp, getEntry]
      rw [if_neg (by simpa using (Ne.symm h)), if_neg (by simp [hp1, Ne.symm h])]
      exact ih
    · simp only [List.map_cons, if_neg hp, getEntry]
      by_cases hq : (p.1 == k') = true
      · rw [if_pos hq, if_pos hq]
      · rw [if_neg hq, if_neg hq]; exact ih

/-- Updating key `k` in place makes the lookup of `k` yield the new value,
provided the key was present. -/
theorem getEntry_map_self {α : Type} (m : List (String × α)) (k : String)
    (v : α) (hex : m.any (fun p => p.1 == k) = true) :
    getEntry (m.map (fun p => if p.1 == k then (k, v) else p)) k = some v := by
  induction m with
  | nil => simp at hex
  | cons p m' ih =>
    simp only [List.any_cons, Bool.or_eq_true] at hex
    by_cases hp : (p.1 == k) = true
    · simp only [List.map_cons, if_pos hp, getEntry]
      rw [if_pos (by simp)]
    · simp only [List.map_cons, if_neg hp, getEntry, if_neg hp]
      exact ih (hex.resolve_left (by simpa using hp))

/-- Lookup of a key absent from every entry yields `none`. -/
theorem getEntry_eq_none {α : Type} (m : List (String × α)) (k : String)
    (hex : ¬ m.any (fun p => p.1 == k) = true) :
    getEntry m k = none := by
  induction m with
  | nil => rfl
  | cons p m' ih =>
    simp only [List.any_cons, Bool.or_eq_true] at hex
    push_neg at hex
    simp only [getEntry, if_neg hex.1]
    exact ih (by simpa using hex.2)

/-- Lookup in an appended singleton. -/
theorem getEntry_append_single {α : Type} (m : List (String × α))
    (k k' : String) (v : α) :
    getEntry (m ++ [(k, v)]) k' =
      match getEntry m k' with
      | some w => some w
      | none => if (k == k') = true then some v else none := by
  induction m with
  | nil => simp [getEntry]
  | cons p m' ih =>
    by_cases hq : (p.1 == k') = true
    · simp [getEntry, hq]
    · simp only [List.cons_append, getEntry, if_neg hq]
      exact ih

/-- JS `Map.set`/`Map.get` interaction: looking up the set key yields the
new value, other keys are unaffected. -/
theorem getEntry_setEntry {α : Type} (m : List (String × α)) (k : String)
    (v : α) (k' : String) :
    getEntry (setEntry m k v) k' = if k' = k then some v else getEntry m k' := by
  by_cases hex : m.any (fun p => p.1 == k) = true
  · rw [setEntry, if_pos hex]
    by_cases hk : k' = k
    · subst hk
      rw [if_pos rfl]
      exact getEntry_map_self m k' v hex
    · rw [if_neg hk]
      exact getEntry_map_ne m k k' v hk
  · rw [setEntry, if_neg hex, getEntry_append_single]
    by_cases hk : k' = k
    · subst hk
      rw [getEntry_eq_none m k' hex, if_pos rfl]
      simp
    · rw [if_neg hk]
      rcases hg : getEntry m k' with _ | w
      · simp [beq_eq_false_iff_ne.mpr (fun hh => hk hh.symm)]
      · simp

/-- Every association in the datamine map comes from a datamine entry with
the matching id. -/
theorem buildDatamineMap_get (dl : List DatamineEntry) :
    ∀ k e, getEntry (buildDatamineMap dl) k = some e → e ∈ dl ∧ e.id = k := by
  have main : ∀ (l : List DatamineEntry) (acc : List (String × DatamineEntry)),
      (∀ x ∈ l, x ∈ dl) →
      (∀ k e, getEntry acc k = some e → e ∈ dl ∧ e.id = k) →
      ∀ k e, getEntry (l.foldl (fun m x => setEntry m x.id x) acc) k = some e →
        e ∈ dl ∧ e.id = k := by
    intro l
    induction l with
    | nil => intro acc _ hacc k e he; exact hacc k e he
    | cons x l' ih =>
      intro acc hl hacc k e he
      refine ih (setEntry acc x.id x) (fun y hy => hl y (List.mem_cons_of_mem _ hy))
        ?_ k e he
      intro k1 e1 he1
      rw [getEntry_setEntry] at he1
      by_cases hk1 : k1 = x.id
      · rw [if_pos hk1] at he1
        obtain rfl : x = e1 := by injection he1
        exact ⟨hl x (List.mem_cons_self _ _), hk1.symm⟩
      · rw [if_neg hk1] at he1
        exact hacc k1 e1 he1
  intro k e he
  exact main dl [] (fun x hx => hx) (fun k1 e1 he1 => by simp [getEntry] at he1)
    k e he

/-- The stats map has an association for an id exactly when some
historical-mode entry with that id exists. -/
theorem buildStatsMap_isSome (sl : List StatSharkEntry) (k : String) :
    (getEntry (buildStatsMap sl) k).isSome = true ↔
      ∃ e ∈ sl, e.mode = GameMode.historical ∧ e.id = k := by
  have main : ∀ (l : List StatSharkEntry) (acc : List (String × StatSharkEntry)),
      ((getEntry (l.foldl
          (fun m e => if e.mode = GameMode.historical then setEntry m e.id e else m)
          acc) k).isSome = true ↔
        (getEntry acc k).isSome = true ∨
          ∃ e ∈ l, e.mode = GameMode.historical ∧ e.id = k) := by
    intro l
    induction l with
    | nil => intro acc; simp
    | cons e0 l' ih =>
      intro acc
      simp only [List.foldl_cons]
      by_cases hm : e0.mode = GameMode.historical
      · rw [if_pos hm, ih]
        have hset : (getEntry (setEntry acc e0.id e0) k).isSome = true ↔
            k = e0.id ∨ (getEntry acc k).isSome = true := by
          rw [getEntry_setEntry]
          by_cases hk : k = e0.id
          · simp [hk]
          · simp [hk]
        rw [hset]
        constructor
        · rintro ((rfl | hacc) | ⟨e, he, hmode, hid⟩)
          · exact Or.inr ⟨e0, List.mem_cons_self _ _, hm, rfl⟩
          · exact Or.inl hacc
          · exact Or.inr ⟨e, List.mem_cons_of_mem _ he, hmode, hid⟩
        · rintro (hacc | ⟨e, he, hmode, hid⟩)
          · exact Or.inl (Or.inr hacc)
          · rcases List.mem_cons.mp he with rfl | he'
            · exact Or.inl (Or.inl hid.symm)
            · exact Or.inr ⟨e, he', hmode, hid⟩
      · rw [if_neg hm, ih]
        constructor
        · rintro (hacc | ⟨e, he, hmode, hid⟩)
          · exact Or.inl hacc
          · exact Or.inr ⟨e, List.mem_cons_of_mem _ he, hmode, hid⟩
        · rintro (hacc | ⟨e, he, hmode, hid⟩)
          · exact Or.inl hacc
          · rcases List.mem_cons.mp he with rfl | he'
            · exact absurd hmode hm
            · exact Or.inr ⟨e, he', hmode, hid⟩
  rw [buildStatsMap, main sl []]
  simp [getEntry]

/-- Claim C10: every vehicle produced by `mergeVehicleData` comes from a
datamine entry with the same id (stats-only ids are skipped); its numeric
performance fields are the datamine values with absent fields defaulted to
0; and its `stats` field is present exactly when a historical-mode stats
entry with that id exists. -/
theorem mergeVehicleData_spec (stats : List StatSharkEntry)
    (datamine : List DatamineEntry) (v : Vehicle)
    (hv : v ∈ mergeVehicleData stats datamine) :
    (∃ e, e ∈ datamine ∧ e.id = v.id ∧
      v.performance.horsepower = e.performance.horsepower.getD 0 ∧
      v.performance.weight = e.performance.weight.getD 0 ∧
      v.performance.powerToWeight = e.performance.power_to_weight.getD 0 ∧
      v.performance.maxReverseSpeed = e.performance.max_reverse_speed.getD 0 ∧
      v.performance.reloadTime = e.performance.reload_time.getD 0 ∧
      v.performance.penetration = e.performance.penetration.getD 0 ∧
      v.performance.maxSpeed = e.performance.max_speed.getD 0 ∧
      v.performance.crewCount = e.performance.crew_count.getD 0 ∧
      v.performance.elevationSpeed = e.performance.elevation_speed.getD 0 ∧
      v.performance.traverseSpeed = e.performance.traverse_speed.getD 0 ∧
      v.performance.gunnerThermalDiagonal =
        e.performance.gunner_thermal_diagonal.getD 0 ∧
      v.performance.commanderThermalDiagonal =
        e.performance.commander_thermal_diagonal.getD 0 ∧
      v.performance.stabilizerValue = e.performance.stabilizer_value.getD 0 ∧
      v.performance.elevationRangeValue =
        e.performance.elevation_range_value.getD 0) ∧
    (v.stats.isSome = true ↔
      ∃ e ∈ stats, e.mode = GameMode.historical ∧ e.id = v.id) := by
  rw [mergeVehicleData] at hv
  simp only [List.mem_filterMap] at hv
  obtain ⟨id, _, hmk⟩ := hv
  rcases hdm : getEntry (buildDatamineMap datamine) id with _ | dm
  · rw [hdm] at hmk; exact absurd hmk (by simp)
  · rw [hdm] at hmk
    simp only [Option.some.injEq] at hmk
    obtain ⟨hmem, hid⟩ := buildDatamineMap_get datamine id dm hdm
    subst hmk
    constructor
    · exact ⟨dm, hmem, by simpa [mkVehicle] using hid, rfl, rfl, rfl, rfl, rfl,
        rfl, rfl, rfl, rfl, rfl, rfl, rfl, rfl, rfl⟩
    · have : (mkVehicle id (getEntry (buildStatsMap stats) id) dm).stats.isSome
          = (getEntry (buildStatsMap stats) id).isSome := by
        simp [mkVehicle, Option.isSome_map]
      rw [this]
      have hvid : (mkVehicle id (getEntry (buildStatsMap stats) id) dm).id = id := rfl
      rw [hvid]
      exact buildStatsMap_isSome stats id

/-- Witness for C10 at a concrete pair of source lists. -/
theorem mergeVehicleData_spec_witness :
    v0.stats.isSome = true ∧ v0 ∈ mergeVehicleData [s0] [d0] := by
  have heq : mergeVehicleData [s0] [d0] = [v0] := by rfl
  have hmem : v0 ∈ mergeVehicleData [s0] [d0] := by
    rw [heq]; exact List.mem_singleton.mpr rfl
  refine ⟨?_, hmem⟩
  exact (mergeVehicleData_spec [s0] [d0] v0 hmem).2.mpr
    ⟨s0, List.mem_cons_self _ _, rfl, rfl⟩

/-! Theorems about the penetration model. -/

/-- Membership in a conditional singleton error list. -/
theorem mem_ite_singleton {c : Prop} [Decidable c] (x y : LOErrorKind) :
    (y ∈ if c then [x] else []) ↔ c ∧ y = x := by
  split <;> simp_all

/-- A non-empty error list forces the reported penetration to 0. -/
theorem compute_pen_zero (E : ErosionModel) (g : PenetratorGeometry)
    (mat : PenetratorMaterial) (tgt : TargetProperties)
    (mode : CalculationMode) (v : ℝ)
    (h : (compute E g mat tgt mode v).errors ≠ []) :
    (compute E g mat tgt mode v).penetration = 0 := by
  simp only [compute] at h ⊢
  rw [if_neg h]

/-- Claim C3: for every input, DU or Steel requested in Penetration
(semi-infinite) mode yields an error list that is non-empty (containing the
unsupported-combination error) and penetration 0. -/
theorem compute_unsupported (E : ErosionModel) (g : PenetratorGeometry)
    (tgt : TargetProperties) (mat : PenetratorMaterial)
    (mode : CalculationMode) (v : ℝ)
    (hmat : mat = PenetratorMaterial.DU ∨ mat = PenetratorMaterial.Steel)
    (hmode : mode = CalculationMode.Penetration) :
    LOErrorKind.unsupportedCombination ∈ (compute E g mat tgt mode v).errors ∧
    (compute E g mat tgt mode v).errors ≠ [] ∧
    (compute E g mat tgt mode v).penetration = 0 := by
  subst hmode
  have hdisp : dispatchErrors E g mat tgt CalculationMode.Penetration v =
      [LOErrorKind.unsupportedCombination] := by
    rcases hmat with rfl | rfl <;> rfl
  have hmem : LOErrorKind.unsupportedCombination ∈
      (compute E g mat tgt CalculationMode.Penetration v).errors := by
    simp [compute, hdisp]
  exact ⟨hmem, List.ne_nil_of_mem hmem,
    compute_pen_zero _ _ _ _ _ _ (List.ne_nil_of_mem hmem)⟩

/-- Witness for C3 at a concrete input. -/
theorem compute_unsupported_witness :
    LOErrorKind.unsupportedCombination ∈
      (compute E0 g0 PenetratorMaterial.DU tgt0
        CalculationMode.Penetration 1.7).errors ∧
    (compute E0 g0 PenetratorMaterial.DU tgt0
      CalculationMode.Penetration 1.7).errors ≠ [] ∧
    (compute E0 g0 PenetratorMaterial.DU tgt0
      CalculationMode.Penetration 1.7).penetration = 0 :=
  compute_unsupported E0 g0 tgt0 _ _ 1.7 (Or.inl rfl) rfl

/-- Claim C4: `compute` is a total function (the embedding never throws);
each applicable validation error appears in the returned list exactly when
its condition holds — independently of all other conditions, so validation
does not short-circuit — and a non-empty error list forces penetration 0. -/
theorem compute_error_spec (E : ErosionModel) (g : PenetratorGeometry)
    (mat : PenetratorMaterial) (tgt : TargetProperties)
    (mode : CalculationMode) (v : ℝ) :
    (LOErrorKind.nonPositiveLength ∈ (compute E g mat tgt mode v).errors ↔
      g.L ≤ 0) ∧
    (LOErrorKind.nonPositiveDiameter ∈ (compute E g mat tgt mode v).errors ↔
      g.d ≤ 0) ∧
    (LOErrorKind.frustumExceedsDiameter ∈ (compute E g mat tgt mode v).errors ↔
      g.d < g.df) ∧
    (LOErrorKind.aspectRatioBelowFour ∈ (compute E g mat tgt mode v).errors ↔
      aspectRatio g < 4) ∧
    (LOErrorKind.targetDensityOutOfRange ∈ (compute E g mat tgt mode v).errors ↔
      (tgt.density < 7700 ∨ 8000 < tgt.density)) ∧
    (LOErrorKind.obliquityAboveLimit ∈ (compute E g mat tgt mode v).errors ↔
      (mode = CalculationMode.Perforation ∧ 75 < tgt.obliquity)) ∧
    (LOErrorKind.unsupportedCombination ∈ (compute E g mat tgt mode v).errors ↔
      ((mat = PenetratorMaterial.DU ∨ mat = PenetratorMaterial.Steel) ∧
        mode = CalculationMode.Penetration)) ∧
    (LOErrorKind.velocityBelowErosionThreshold ∈
        (compute E g mat tgt mode v).errors ↔
      (¬((mat = PenetratorMaterial.DU ∨ mat = PenetratorMaterial.Steel) ∧
          mode = CalculationMode.Penetration) ∧
        v < E.minVelocity mat mode g tgt)) ∧
    (LOErrorKind.penetratorDensityOutOfRange ∈
        (compute E g mat tgt mode v).errors ↔
      ((mat = PenetratorMaterial.Tungsten ∧
          (g.densityP ≤ 16500 ∨ 19300 ≤ g.densityP)) ∨
       (mat = PenetratorMaterial.DU ∧ mode = CalculationMode.Perforation ∧
          (g.densityP ≤ 16500 ∨ 19100 ≤ g.densityP)) ∨
       (mat = PenetratorMaterial.Steel ∧ mode = CalculationMode.Perforation ∧
          (g.densityP ≤ 7700 ∨ 8500 ≤ g.densityP)))) ∧
    (LOErrorKind.targetHardnessOutOfRange ∈
        (compute E g mat tgt mode v).errors ↔
      ((mat = PenetratorMaterial.Tungsten ∧
          mode = CalculationMode.Perforation ∧
          (tgt.hardness ≤ 150 ∨ 500 ≤ tgt.hardness)) ∨
       (mat = PenetratorMaterial.Tungsten ∧
          mode = CalculationMode.Penetration ∧
          (tgt.hardness ≤ 200 ∨ 600 ≤ tgt.hardness)) ∨
       (mat = PenetratorMaterial.DU ∧ mode = CalculationMode.Perforation ∧
          (tgt.hardness ≤ 150 ∨ 500 ≤ tgt.hardness)) ∨
       (mat = PenetratorMaterial.Steel ∧ mode = CalculationMode.Perforation ∧
          (tgt.hardness ≤ 120 ∨ 550 ≤ tgt.hardness)))) ∧
    (LOErrorKind.penetratorHardnessOutOfRange ∈
        (compute E g mat tgt mode v).errors ↔
      (mat = PenetratorMaterial.Steel ∧ mode = CalculationMode.Perforation ∧
        (g.bhnP ≤ 200 ∨ 750 ≤ g.bhnP))) ∧
    ((compute E g mat tgt mode v).errors ≠ [] →
      (compute E g mat tgt mode v).penetration = 0) := by
  refine ⟨?_, ?_, ?_, ?_, ?_, ?_, ?_, ?_, ?_, ?_, ?_,
    compute_pen_zero E g mat tgt mode v⟩ <;>
  · cases mat <;> cases mode <;>
      simp [compute, geometryErrors, targetErrors, obliquityErrors,
        dispatchErrors, boundErrors, erosionErrors, mem_ite_singleton,
        List.mem_append]

/-- Witness for C4: a geometry with non-positive length yields the
corresponding error and penetration 0. -/
theorem compute_error_spec_witness :
    (compute E0 gBad PenetratorMaterial.Tungsten tgt0
      CalculationMode.Perforation 1.7).penetration = 0 := by
  have h := compute_error_spec E0 gBad PenetratorMaterial.Tungsten tgt0
    CalculationMode.Perforation 1.7
  have hL : gBad.L ≤ 0 := by norm_num [gBad]
  exact h.2.2.2.2.2.2.2.2.2.2.2 (List.ne_nil_of_mem (h.1.mpr hL))

/-! Theorems about the slope-effect table. -/

/-- A chain-sorted interpolation table never exceeds its leading
multiplier. -/
theorem interp_le_head (x : ℝ) :
    ∀ (t : List (ℝ × ℝ)) (a m : ℝ),
      List.Chain' slopeChainR ((a, m) :: t) → interp ((a, m) :: t) x ≤ m := by
  intro t
  induction t with
  | nil => intro a m _; simp [interp]
  | cons q t' ih =>
    intro a m hch
    obtain ⟨a2, m2⟩ := q
    rw [List.chain'_cons] at hch
    obtain ⟨⟨ha12, hm21⟩, hch'⟩ := hch
    by_cases h1 : x ≤ a
    · simp [interp, h1]
    · by_cases h2 : x ≤ a2
      · simp only [interp]
        rw [if_neg h1, if_pos h2]
        have hxa : 0 ≤ x - a := by linarith [not_le.mp h1]
        have ha2a : (0:ℝ) < a2 - a := by linarith
        have hsg : (m2 - m) * (x - a) / (a2 - a) ≤ 0 :=
          div_nonpos_of_nonpos_of_nonneg
            (mul_nonpos_of_nonpos_of_nonneg (by linarith) hxa) ha2a.le
        linarith
      · simp only [interp]
        rw [if_neg h1, if_neg h2]
        exact (ih a2 m2 hch').trans hm21

/-- Linear interpolation over a chain-sorted table is antitone. -/
theorem interp_antitone (x y : ℝ) (hxy : x ≤ y) :
    ∀ (t : List (ℝ × ℝ)), List.Chain' slopeChainR t →
      interp t y ≤ interp t x := by
  intro t
  induction t with
  | nil => intro _; simp [interp]
  | cons p t' ih =>
    obtain ⟨a, m⟩ := p
    cases t' with
    | nil => intro _; simp [interp]
    | cons q t'' =>
      obtain ⟨a2, m2⟩ := q
      intro hch
      rw [List.chain'_cons] at hch
      obtain ⟨⟨ha12, hm21⟩, hch'⟩ := hch
      have ha2a : (0:ℝ) < a2 - a := by linarith
      by_cases hy1 : y ≤ a
      · have hx1 : x ≤ a := hxy.trans hy1
        simp [interp, hy1, hx1]
      · by_cases hy2 : y ≤ a2
        · by_cases hx1 : x ≤ a
          · simp only [interp]
            rw [if_neg hy1, if_pos hy2, if_pos hx1]
            have hya : 0 ≤ y - a := by linarith [not_le.mp hy1]
            have hsg : (m2 - m) * (y - a) / (a2 - a) ≤ 0 :=
              div_nonpos_of_nonpos_of_nonneg
                (mul_nonpos_of_nonpos_of_nonneg (by linarith) hya) ha2a.le
            linarith
          · have hx2 : x ≤ a2 := hxy.trans hy2
            simp only [interp]
            rw [if_neg hy1, if_pos hy2, if_neg hx1, if_pos hx2]
            have hdiff : (m2 - m) * (y - a) ≤ (m2 - m) * (x - a) :=
              mul_le_mul_of_nonpos_left (by linarith) (by linarith)
            have hdiv : (m2 - m) * (y - a) / (a2 - a) ≤
                (m2 - m) * (x - a) / (a2 - a) := by
              rw [div_eq_mul_inv, div_eq_mul_inv]
              exact mul_le_mul_of_nonneg_right hdiff
                (inv_nonneg.mpr ha2a.le)
            linarith
        · by_cases hx1 : x ≤ a
          · simp only [interp]
            rw [if_neg hy1, if_neg hy2, if_pos hx1]
            have h1 : interp ((a2, m2) :: t'') y ≤ m2 :=
              interp_le_head y t'' a2 m2 hch'
            linarith
          · by_cases hx2 : x ≤ a2
            · simp only [interp]
              rw [if_neg hy1, if_neg hy2, if_neg hx1, if_pos hx2]
              have h1 : interp ((a2, m2) :: t'') y ≤ m2 :=
                interp_le_head y t'' a2 m2 hch'
              have hratio : (x - a) / (a2 - a) ≤ 1 := by
                rw [div_le_one ha2a]; linarith
              have h2 : m2 - m ≤ (m2 - m) * ((x - a) / (a2 - a)) := by
                have hm := mul_le_mul_of_nonpos_left hratio
                  (by linarith : m2 - m ≤ 0)
                simpa using hm
              have h3 : (m2 - m) * (x - a) / (a2 - a) =
                  (m2 - m) * ((x - a) / (a2 - a)) := by ring
              linarith
            · simp only [interp]
              rw [if_neg hy1, if_neg hy2, if_neg hx1, if_neg hx2]
              exact ih hch'

/-- The concrete slope-effect table is chain-sorted. -/
theorem slopeEffectTable_chain : List.Chain' slopeChainR slopeEffectTable := by
  norm_num [slopeEffectTable, slopeChainR, List.chain'_cons]

/-- Claim C5: the slope-effect multiplier is 20.0 at normal angle 0 and 1.0
at 90, and is monotonically non-increasing over [0, 90]. -/
theorem multiplier_at_normal_angle_spec :
    multiplier_at_normal_angle 0 = 20 ∧
    multiplier_at_normal_angle 90 = 1 ∧
    ∀ x y : ℝ, 0 ≤ x → x ≤ y → y ≤ 90 →
      multiplier_at_normal_angle y ≤ multiplier_at_normal_angle x := by
  refine ⟨?_, ?_, ?_⟩
  · norm_num [multiplier_at_normal_angle, slopeEffectTable, interp]
  · norm_num [multiplier_at_normal_angle, slopeEffectTable, interp]
  · intro x y hx hxy hy
    exact interp_antitone x y hxy slopeEffectTable slopeEffectTable_chain

/-- Witness for C5 at concrete angles. -/
theorem multiplier_at_normal_angle_spec_witness :
    multiplier_at_normal_angle 0 = 20 ∧
    multiplier_at_normal_angle 90 = 1 ∧
    multiplier_at_normal_angle 20 ≤ multiplier_at_normal_angle 10 :=
  ⟨multiplier_at_normal_angle_spec.1, multiplier_at_normal_angle_spec.2.1,
    multiplier_at_normal_angle_spec.2.2 10 20 (by norm_num) (by norm_num)
      (by norm_num)⟩

/-! Theorems about the ballistic decay model. -/

/-- With positive drag inputs and a non-degenerate caliber, velocity is
strictly decreasing in distance. -/
theorem velocity_at_distance_lt (v0 mass caliber cx : ℝ) (hv0 : 0 < v0)
    (hm : 0 < mass) (hcx : 0 < cx) (hc : caliber ≠ 0) (d1 d2 : ℝ)
    (hd : d1 < d2) :
    velocity_at_distance v0 d2 mass caliber cx <
      velocity_at_distance v0 d1 mass caliber cx := by
  have hsq : (0:ℝ) < (caliber / 2000) ^ 2 :=
    pow_two_pos_of_ne_zero (div_ne_zero hc (by norm_num))
  have hk : 0 < cx * 1.225 * (Real.pi * (caliber / 2000) ^ 2) / (2 * mass) := by
    apply div_pos
    · exact mul_pos (mul_pos hcx (by norm_num)) (mul_pos Real.pi_pos hsq)
    · linarith
  have harg :
      -(cx * 1.225 * (Real.pi * (caliber / 2000) ^ 2) / (2 * mass) * d2) <
      -(cx * 1.225 * (Real.pi * (caliber / 2000) ^ 2) / (2 * mass) * d1) :=
    neg_lt_neg (mul_lt_mul_of_pos_left hd hk)
  unfold velocity_at_distance
  exact mul_lt_mul_of_pos_left (Real.exp_lt_exp.mpr harg) hv0

/-- Claim C6 counterexample: with caliber 0 the drag constant vanishes, so
even with cx = 1 > 0 and mass = 1 > 0 the velocity does not strictly
decrease with distance. -/
theorem velocity_at_distance_counterexample :
    ¬ (velocity_at_distance 1 1 1 0 1 < velocity_at_distance 1 0 1 0 1) := by
  have h1 : velocity_at_distance 1 1 1 0 1 = 1 := by
    simp [velocity_at_distance]
  have h2 : velocity_at_distance 1 0 1 0 1 = 1 := by
    simp [velocity_at_distance]
  rw [h1, h2]
  exact lt_irrefl 1

/-- Claim C6 (amended): `velocity_at_distance(v0, 0, ...) = v0` for every
input, and the velocity is strictly decreasing in distance provided v0 > 0,
mass > 0, cx > 0 and caliber ≠ 0. -/
theorem velocity_at_distance_spec :
    (∀ v0 mass caliber cx : ℝ,
      velocity_at_distance v0 0 mass caliber cx = v0) ∧
    (∀ v0 mass caliber cx d1 d2 : ℝ, 0 < v0 → 0 < mass → 0 < cx →
      caliber ≠ 0 → d1 < d2 →
      velocity_at_distance v0 d2 mass caliber cx <
        velocity_at_distance v0 d1 mass caliber cx) := by
  constructor
  · intro v0 mass caliber cx
    simp [velocity_at_distance]
  · intro v0 mass caliber cx d1 d2 hv0 hm hcx hc hd
    exact velocity_at_distance_lt v0 mass caliber cx hv0 hm hcx hc d1 d2 hd

/-- Witness for the amended C6 at concrete inputs. -/
theorem velocity_at_distance_spec_witness :
    velocity_at_distance 2 0 3 10 1 = 2 ∧
    velocity_at_distance 2 100 3 10 1 < velocity_at_distance 2 50 3 10 1 :=
  ⟨velocity_at_distance_spec.1 2 3 10 1,
   velocity_at_distance_spec.2 2 3 10 1 50 100 (by norm_num) (by norm_num)
     (by norm_num) (by norm_num) (by norm_num)⟩

/-! Velocity monotonicity of the penetration model. -/

/-- Emptiness of a conditional singleton error list. -/
theorem ite_singleton_eq_nil {c : Prop} [Decidable c] (x : LOErrorKind) :
    (if c then [x] else []) = [] ↔ ¬c := by
  split <;> simp_all

/-- Positivity of the geometric correction factors on validated input. -/
theorem loFactors_pos (g : PenetratorGeometry) (tgt : TargetProperties)
    (hd : 0 < g.d) (hlwd : 4 ≤ aspectRatio g) (hrp : 0 < g.densityP)
    (hrt : 0 < tgt.density) :
    0 < workingLength g ∧ 0 < elwd g ∧ 0 < edens g tgt := by
  have hlw : 0 < workingLength g := by
    have h4 : 0 < aspectRatio g := lt_of_lt_of_le (by norm_num) hlwd
    have heq : workingLength g = aspectRatio g * g.d := by
      rw [aspectRatio, div_mul_cancel₀]
      exact ne_of_gt hd
    rw [heq]
    exact mul_pos h4 hd
  refine ⟨hlw, ?_, Real.sqrt_pos.mpr (div_pos hrp hrt)⟩
  rw [elwd]
  apply one_div_pos.mpr
  rw [Real.tanh_eq_sinh_div_cosh]
  apply div_pos _ (Real.cosh_pos _)
  apply Real.sinh_pos_iff.mpr
  have h1 : (0:ℝ) < b1 * aspectRatio g :=
    mul_pos (by norm_num [b1]) (by linarith)
  have h2 : (0:ℝ) < b0 := by norm_num [b0]
  linarith

/-- Positivity of the obliquity correction for obliquity in [0, 75]. -/
theorem enato_pos (tgt : TargetProperties) (h0 : 0 ≤ tgt.obliquity)
    (h75 : tgt.obliquity ≤ 75) : 0 < enato tgt := by
  have hcos : 0 < Real.cos (tgt.obliquity * Real.pi / 180) := by
    apply Real.cos_pos_of_mem_Ioo
    rw [Set.mem_Ioo]
    constructor
    · have hge : 0 ≤ tgt.obliquity * Real.pi / 180 := by positivity
      have hpi : 0 < Real.pi / 2 := by positivity
      linarith
    · have h1 : tgt.obliquity * Real.pi ≤ 75 * Real.pi :=
        mul_le_mul_of_nonneg_right h75 Real.pi_pos.le
      have h2 : (75:ℝ) * Real.pi / 180 < Real.pi / 2 := by
        rw [div_lt_div_iff₀ (by norm_num) (by norm_num)]
        nlinarith [Real.pi_pos]
      calc tgt.obliquity * Real.pi / 180 ≤ 75 * Real.pi / 180 := by linarith
        _ < Real.pi / 2 := h2
  exact Real.rpow_pos_of_pos hcos _

/-- Claim C7: holding every validated input fixed except the impact
velocity, two velocities strictly above the minimum erosion threshold give
strictly increasing penetration (valid inputs have non-negative obliquity
per the data model of §3). -/
theorem compute_velocity_strict_mono (E : ErosionModel)
    (g : PenetratorGeometry) (mat : PenetratorMaterial)
    (tgt : TargetProperties) (mode : CalculationMode) (v1 v2 : ℝ)
    (hobl : 0 ≤ tgt.obliquity)
    (hmin : E.minVelocity mat mode g tgt < v1) (h12 : v1 < v2)
    (herr : (compute E g mat tgt mode v1).errors = []) :
    (compute E g mat tgt mode v1).penetration <
      (compute E g mat tgt mode v2).penetration := by
  have herr' : geometryErrors g = [] ∧ targetErrors tgt = [] ∧
      obliquityErrors mode tgt = [] ∧
      dispatchErrors E g mat tgt mode v1 = [] := by
    simpa only [compute, List.append_eq_nil, and_assoc] using herr
  obtain ⟨hA, hB, hC, hD⟩ := herr'
  have hgeo : ¬g.L ≤ 0 ∧ ¬g.d ≤ 0 ∧ ¬g.d < g.df ∧ ¬aspectRatio g < 4 := by
    simpa only [geometryErrors, List.append_eq_nil, ite_singleton_eq_nil,
      and_assoc] using hA
  have hd : 0 < g.d := not_le.mp hgeo.2.1
  have hlwd : 4 ≤ aspectRatio g := not_lt.mp hgeo.2.2.2
  have htd : ¬(tgt.density < 7700 ∨ 8000 < tgt.density) := by
    simpa only [targetErrors, ite_singleton_eq_nil] using hB
  have hrt : 0 < tgt.density := by
    push_neg at htd
    linarith [htd.1]
  have hCob : ¬(mode = CalculationMode.Perforation ∧ 75 < tgt.obliquity) := by
    simpa only [obliquityErrors, ite_singleton_eq_nil] using hC
  have hv2min : ¬(v2 < E.minVelocity mat mode g tgt) :=
    not_lt.mpr (le_of_lt (hmin.trans h12))
  have hcat1 : geometryErrors g ++ targetErrors tgt ++
      obliquityErrors mode tgt ++ dispatchErrors E g mat tgt mode v1 = [] := by
    rw [hA, hB, hC, hD]; rfl
  have hp1 : (compute E g mat tgt mode v1).penetration =
      basePenetration E g mat tgt mode v1 := by
    simp only [compute]
    rw [if_pos hcat1]
  cases mat with
  | Tungsten =>
    cases mode with
    | Perforation =>
      have hDsplit : ¬(g.densityP ≤ 16500 ∨ 19300 ≤ g.densityP) ∧
          ¬(tgt.hardness ≤ 150 ∨ 500 ≤ tgt.hardness) ∧
          ¬(v1 < E.minVelocity PenetratorMaterial.Tungsten
              CalculationMode.Perforation g tgt) := by
        simpa only [dispatchErrors, boundErrors, erosionErrors,
          List.append_eq_nil, ite_singleton_eq_nil, and_assoc] using hD
      have hrp : 0 < g.densityP := by
        have := hDsplit.1
        push_neg at this
        linarith [this.1]
      have hD2 : dispatchErrors E g PenetratorMaterial.Tungsten tgt
          CalculationMode.Perforation v2 = [] := by
        simp only [dispatchErrors, boundErrors, erosionErrors,
          List.append_eq_nil, ite_singleton_eq_nil, and_assoc]
        exact ⟨hDsplit.1, hDsplit.2.1, hv2min⟩
      have hcat2 : geometryErrors g ++ targetErrors tgt ++
          obliquityErrors CalculationMode.Perforation tgt ++
          dispatchErrors E g PenetratorMaterial.Tungsten tgt
            CalculationMode.Perforation v2 = [] := by
        rw [hA, hB, hC, hD2]; rfl
      have hp2 : (compute E g PenetratorMaterial.Tungsten tgt
          CalculationMode.Perforation v2).penetration =
          basePenetration E g PenetratorMaterial.Tungsten tgt
            CalculationMode.Perforation v2 := by
        simp only [compute]
        rw [if_pos hcat2]
      rw [hp1, hp2]
      simp only [basePenetration]
      obtain ⟨hlw, helwd, hedens⟩ := loFactors_pos g tgt hd hlwd hrp hrt
      have h75 : tgt.obliquity ≤ 75 := by
        by_contra hcon
        exact hCob ⟨rfl, not_le.mp hcon⟩
      have henato := enato_pos tgt hobl h75
      exact mul_lt_mul_of_pos_left
        (E.expTerm_lt _ _ _ _ _ _ hmin h12)
        (mul_pos (mul_pos (mul_pos (mul_pos (by norm_num) hlw) helwd)
          henato) hedens)
    | Penetration =>
      have hDsplit : ¬(g.densityP ≤ 16500 ∨ 19300 ≤ g.densityP) ∧
          ¬(tgt.hardness ≤ 200 ∨ 600 ≤ tgt.hardness) ∧
          ¬(v1 < E.minVelocity PenetratorMaterial.Tungsten
              CalculationMode.Penetration g tgt) := by
        simpa only [dispatchErrors, boundErrors, erosionErrors,
          List.append_eq_nil, ite_singleton_eq_nil, and_assoc] using hD
      have hrp : 0 < g.densityP := by
        have := hDsplit.1
        push_neg at this
        linarith [this.1]
      have hD2 : dispatchErrors E g PenetratorMaterial.Tungsten tgt
          CalculationMode.Penetration v2 = [] := by
        simp only [dispatchErrors, boundErrors, erosionErrors,
          List.append_eq_nil, ite_singleton_eq_nil, and_assoc]
        exact ⟨hDsplit.1, hDsplit.2.1, hv2min⟩
      have hcat2 : geometryErrors g ++ targetErrors tgt ++
          obliquityErrors CalculationMode.Penetration tgt ++
          dispatchErrors E g PenetratorMaterial.Tungsten tgt
            CalculationMode.Penetration v2 = [] := by
        rw [hA, hB, hC, hD2]; rfl
      have hp2 : (compute E g PenetratorMaterial.Tungsten tgt
          CalculationMode.Penetration v2).penetration =
          basePenetration E g PenetratorMaterial.Tungsten tgt
            CalculationMode.Penetration v2 := by
        simp only [compute]
        rw [if_pos hcat2]
      rw [hp1, hp2]
      simp only [basePenetration]
      obtain ⟨hlw, helwd, hedens⟩ := loFactors_pos g tgt hd hlwd hrp hrt
      exact mul_lt_mul_of_pos_left
        (E.expTerm_lt _ _ _ _ _ _ hmin h12)
        (mul_pos (mul_pos (mul_pos (by norm_num) hlw) helwd) hedens)
  | DU =>
    cases mode with
    | Perforation =>
      have hDsplit : ¬(g.densityP ≤ 16500 ∨ 19100 ≤ g.densityP) ∧
          ¬(tgt.hardness ≤ 150 ∨ 500 ≤ tgt.hardness) ∧
          ¬(v1 < E.minVelocity PenetratorMaterial.DU
              CalculationMode.Perforation g tgt) := by
        simpa only [dispatchErrors, boundErrors, erosionErrors,
          List.append_eq_nil, ite_singleton_eq_nil, and_assoc] using hD
      have hrp : 0 < g.densityP := by
        have := hDsplit.1
        push_neg at this
        linarith [this.1]
      have hD2 : dispatchErrors E g PenetratorMaterial.DU tgt
          CalculationMode.Perforation v2 = [] := by
        simp only [dispatchErrors, boundErrors, erosionErrors,
          List.append_eq_nil, ite_singleton_eq_nil, and_assoc]
        exact ⟨hDsplit.1, hDsplit.2.1, hv2min⟩
      have hcat2 : geometryErrors g ++ targetErrors tgt ++
          obliquityErrors CalculationMode.Perforation tgt ++
          dispatchErrors E g PenetratorMaterial.DU tgt
            CalculationMode.Perforation v2 = [] := by
        rw [hA, hB, hC, hD2]; rfl
      have hp2 : (compute E g PenetratorMaterial.DU tgt
          CalculationMode.Perforation v2).penetration =
          basePenetration E g PenetratorMaterial.DU tgt
            CalculationMode.Perforation v2 := by
        simp only [compute]
        rw [if_pos hcat2]
      rw [hp1, hp2]
      simp only [basePenetration]
      obtain ⟨hlw, helwd, hedens⟩ := loFactors_pos g tgt hd hlwd hrp hrt
      have h75 : tgt.obliquity ≤ 75 := by
        by_contra hcon
        exact hCob ⟨rfl, not_le.mp hcon⟩
      have henato := enato_pos tgt hobl h75
      exact mul_lt_mul_of_pos_left
        (E.expTerm_lt _ _ _ _ _ _ hmin h12)
        (mul_pos (mul_pos (mul_pos (mul_pos (by norm_num) hlw) helwd)
          henato) hedens)
    | Penetration =>
      exact absurd hD (by simp [dispatchErrors])
  | Steel =>
    cases mode with
    | Perforation =>
      have hDsplit : ¬(g.densityP ≤ 7700 ∨ 8500 ≤ g.densityP) ∧
          ¬(g.bhnP ≤ 200 ∨ 750 ≤ g.bhnP) ∧
          ¬(tgt.hardness ≤ 120 ∨ 550 ≤ tgt.hardness) ∧
          ¬(v1 < E.minVelocity PenetratorMaterial.Steel
              CalculationMode.Perforation g tgt) := by
        simpa only [dispatchErrors, boundErrors, erosionErrors,
          List.append_eq_nil, ite_singleton_eq_nil, and_assoc] using hD
      have hrp : 0 < g.densityP := by
        have := hDsplit.1
        push_neg at this
        linarith [this.1]
      have hD2 : dispatchErrors E g PenetratorMaterial.Steel tgt
          CalculationMode.Perforation v2 = [] := by
        simp only [dispatchErrors, boundErrors, erosionErrors,
          List.append_eq_nil, ite_singleton_eq_nil, and_assoc]
        exact ⟨hDsplit.1, hDsplit.2.1, hDsplit.2.2.1, hv2min⟩
      have hcat2 : geometryErrors g ++ targetErrors tgt ++
          obliquityErrors CalculationMode.Perforation tgt ++
          dispatchErrors E g PenetratorMaterial.Steel tgt
            CalculationMode.Perforation v2 = [] := by
        rw [hA, hB, hC, hD2]; rfl
      have hp2 : (compute E g PenetratorMaterial.Steel tgt
          CalculationMode.Perforation v2).penetration =
          basePenetration E g PenetratorMaterial.Steel tgt
            CalculationMode.Perforation v2 := by
        simp only [compute]
        rw [if_pos hcat2]
      rw [hp1, hp2]
      simp only [basePenetration]
      obtain ⟨hlw, helwd, hedens⟩ := loFactors_pos g tgt hd hlwd hrp hrt
      have h75 : tgt.obliquity ≤ 75 := by
        by_contra hcon
        exact hCob ⟨rfl, not_le.mp hcon⟩
      have henato := enato_pos tgt hobl h75
      exact mul_lt_mul_of_pos_left
        (E.expTerm_lt _ _ _ _ _ _ hmin h12)
        (mul_pos (mul_pos (mul_pos (mul_pos (by norm_num) hlw) helwd)
          henato) hedens)
    | Penetration =>
      exact absurd hD (by simp [dispatchErrors])

/-- The concrete instance (`E0`, `g0`, `tgt0`, Tungsten, Perforation) passes
every validation for any non-negative velocity. -/
theorem compute_E0_g0_valid (v : ℝ) (hv : 0 ≤ v) :
    (compute E0 g0 PenetratorMaterial.Tungsten tgt0
      CalculationMode.Perforation v).errors = [] := by
  simp only [compute, geometryErrors, targetErrors, obliquityErrors,
    dispatchErrors, boundErrors, erosionErrors, E0, g0, tgt0, aspectRatio,
    workingLength]
  norm_num
  exact hv

/-- Witness for C7 at concrete inputs: velocity 2 beats velocity 1. -/
theorem compute_velocity_strict_mono_witness :
    (compute E0 g0 PenetratorMaterial.Tungsten tgt0
      CalculationMode.Perforation 1).penetration <
    (compute E0 g0 PenetratorMaterial.Tungsten tgt0
      CalculationMode.Perforation 2).penetration := by
  apply compute_velocity_strict_mono
  · norm_num [tgt0]
  · norm_num [E0]
  · norm_num
  · exact compute_E0_g0_valid 1 (by norm_num)

/-! Theorems about the curve generator. -/

/-- A validated sample produces a curve point carrying its distance and
impact velocity. -/
theorem distance_curve_velocity_mem (E : ErosionModel)
    (g : PenetratorGeometry) (mat : PenetratorMaterial)
    (tgt : TargetProperties) (mode : CalculationMode)
    (v0 mass caliber cx maxDistance : ℝ) (steps : ℕ) (i : ℕ)
    (hi : i < steps + 1)
    (hcond : (compute E g mat { tgt with obliquity := 0 } mode
      (velocity_at_distance v0 ((i:ℝ) * maxDistance / (steps:ℝ)) mass caliber
        cx)).errors = []) :
    (⟨(i:ℝ) * maxDistance / (steps:ℝ),
      equivalent_penetration
        (compute E g mat { tgt with obliquity := 0 } mode
          (velocity_at_distance v0 ((i:ℝ) * maxDistance / (steps:ℝ)) mass
            caliber cx)).penetration tgt.obliquity,
      (compute E g mat { tgt with obliquity := 0 } mode
        (velocity_at_distance v0 ((i:ℝ) * maxDistance / (steps:ℝ)) mass
          caliber cx)).penetration,
      velocity_at_distance v0 ((i:ℝ) * maxDistance / (steps:ℝ)) mass caliber
        cx⟩ : CurvePoint) ∈
      distance_curve E g mat tgt mode v0 mass caliber cx maxDistance steps := by
  rw [distance_curve, List.mem_filterMap]
  refine ⟨i, List.mem_range.mpr hi, ?_⟩
  simp only []
  rw [if_pos hcond]

/-- Claim C8 counterexample: with cx = 0 (and the trivially monotone
erosion instance) two valid samples carry the same impact velocity, so the
velocity sequence is not strictly decreasing even though all samples are
valid. -/
theorem distance_curve_counterexample :
    ¬ ((distance_curve E0 g0 PenetratorMaterial.Tungsten tgt0
        CalculationMode.Perforation 1.7 4.2 30 0 100 1).Pairwise
      (fun p q => q.impactVelocity < p.impactVelocity)) := by
  intro hpw
  have hv : ∀ d : ℝ, velocity_at_distance 1.7 d 4.2 30 0 = 1.7 := by
    intro d
    simp [velocity_at_distance]
  have hcond : ∀ d : ℝ, (compute E0 g0 PenetratorMaterial.Tungsten
      { tgt0 with obliquity := 0 } CalculationMode.Perforation
      (velocity_at_distance 1.7 d 4.2 30 0)).errors = [] := by
    intro d
    rw [hv d]
    exact compute_E0_g0_valid 1.7 (by norm_num)
  have hp0 := distance_curve_velocity_mem E0 g0
    PenetratorMaterial.Tungsten tgt0 CalculationMode.Perforation
    1.7 4.2 30 0 100 1 0 (by norm_num) (hcond _)
  have hp1 := distance_curve_velocity_mem E0 g0
    PenetratorMaterial.Tungsten tgt0 CalculationMode.Perforation
    1.7 4.2 30 0 100 1 1 (by norm_num) (hcond _)
  have hsym : Symmetric (fun p q : CurvePoint =>
      q.impactVelocity < p.impactVelocity ∨
        p.impactVelocity < q.impactVelocity) := by
    intro p q h
    exact h.symm
  have hpw' : List.Pairwise (fun p q : CurvePoint =>
      q.impactVelocity < p.impactVelocity ∨
        p.impactVelocity < q.impactVelocity)
      (distance_curve E0 g0 PenetratorMaterial.Tungsten tgt0
        CalculationMode.Perforation 1.7 4.2 30 0 100 1) :=
    hpw.imp (fun h => Or.inl h)
  have hS := List.Pairwise.forall hsym hpw' hp0 hp1 (by
    intro hcon
    have hdd := congrArg CurvePoint.distance hcon
    norm_num at hdd)
  simp only [hv] at hS
  rcases hS with h | h <;> exact absurd h (lt_irrefl _)

/-- Claim C8 (amended): `distance_curve` yields at most `steps+1` points;
every emitted point is a genuinely validated sample (erroring samples are
omitted, not zero-filled); and the impact velocities are strictly
decreasing with distance provided v0, mass, cx, caliber and max_distance
are positive. -/
theorem distance_curve_spec (E : ErosionModel) (g : PenetratorGeometry)
    (mat : PenetratorMaterial) (tgt : TargetProperties)
    (mode : CalculationMode) (v0 mass caliber cx maxDistance : ℝ)
    (steps : ℕ) :
    (distance_curve E g mat tgt mode v0 mass caliber cx maxDistance
      steps).length ≤ steps + 1 ∧
    (∀ p ∈ distance_curve E g mat tgt mode v0 mass caliber cx maxDistance
        steps,
      (compute E g mat { tgt with obliquity := 0 } mode
        p.impactVelocity).errors = [] ∧
      p.basePenetration = (compute E g mat { tgt with obliquity := 0 } mode
        p.impactVelocity).penetration ∧
      p.equivalentPenetration =
        equivalent_penetration p.basePenetration tgt.obliquity ∧
      p.impactVelocity =
        velocity_at_distance v0 p.distance mass caliber cx) ∧
    (0 < v0 → 0 < mass → 0 < cx → 0 < caliber → 0 < maxDistance →
      (distance_curve E g mat tgt mode v0 mass caliber cx maxDistance
        steps).Pairwise
        (fun p q => q.impactVelocity < p.impactVelocity)) := by
  refine ⟨?_, ?_, ?_⟩
  · rw [distance_curve]
    calc (List.filterMap _ (List.range (steps + 1))).length
        ≤ (List.range (steps + 1)).length := List.length_filterMap_le _ _
      _ = steps + 1 := List.length_range _
  · intro p hp
    rw [distance_curve, List.mem_filterMap] at hp
    obtain ⟨i, _, hfi⟩ := hp
    simp only [] at hfi
    split at hfi
    next h =>
      rw [Option.some.injEq] at hfi
      subst hfi
      exact ⟨h, rfl, rfl, rfl⟩
    next =>
      exact absurd hfi (by simp)
  · intro hv0 hm hcx hc hmax
    rw [distance_curve, List.pairwise_filterMap]
    refine List.Pairwise.imp_of_mem ?_ (List.pairwise_lt_range (steps + 1))
    intro i j hi hj hij
    intro b hb b' hb'
    rw [Option.mem_def] at hb hb'
    simp only [] at hb hb'
    have hjs : j < steps + 1 := List.mem_range.mp hj
    have hsteps : 0 < steps := by omega
    have hstep_pos : (0:ℝ) < maxDistance / (steps:ℝ) :=
      div_pos hmax (by exact_mod_cast hsteps)
    have hd : (i:ℝ) * maxDistance / (steps:ℝ) <
        (j:ℝ) * maxDistance / (steps:ℝ) := by
      rw [mul_div_assoc, mul_div_assoc]
      exact mul_lt_mul_of_pos_right (by exact_mod_cast hij) hstep_pos
    split at hb
    next =>
      rw [Option.some.injEq] at hb
      split at hb'
      next =>
        rw [Option.some.injEq] at hb'
        subst hb
        subst hb'
        exact velocity_at_distance_lt v0 mass caliber cx hv0 hm hcx
          (ne_of_gt hc) _ _ hd
      next =>
        exact absurd hb' (by simp)
    next =>
      exact absurd hb (by simp)

/-- Witness for the amended C8 at concrete positive drag inputs. -/
theorem distance_curve_spec_witness :
    (distance_curve E0 g0 PenetratorMaterial.Tungsten tgt0
      CalculationMode.Perforation 1.7 4.2 30 1 100 1).Pairwise
      (fun p q => q.impactVelocity < p.impactVelocity) :=
  (distance_curve_spec E0 g0 PenetratorMaterial.Tungsten tgt0
    CalculationMode.Perforation 1.7 4.2 30 1 100 1).2.2
    (by norm_num) (by norm_num) (by norm_num) (by norm_num) (by norm_num)

end WtLens
